import Mathlib

/-!
Shallow embedding of `src/button3.py`, a MicroPython push-button driver for the
Raspberry Pi Pico.  It covers the `KeyList` registry, the `Button` debounce
state machine and its interrupt handler, the callback dispatch performed by
`Button._do_function`, and the `Volume` PWM consumer.  Machine time is
MicroPython `time.ticks_ms` arithmetic, modelled as natural-number tick values
with the wraparound-safe signed difference made explicit.
-/

namespace Pico

/-- MicroPython tick period for `time.ticks_ms` (`2 ^ 30` on the rp2 port). -/
def ticksPeriod : Int := 2 ^ 30

/-- MicroPython `time.ticks_diff(a, b)`: the wraparound-safe signed difference
`((a - b + TICKS_PERIOD // 2) % TICKS_PERIOD) - TICKS_PERIOD // 2`. -/
def ticks_diff (a b : Nat) : Int :=
  ((a : Int) - (b : Int) + ticksPeriod / 2) % ticksPeriod - ticksPeriod / 2

/-- Mutable state of one `Button` instance (source lines 43-68).  The bound
callback is abstracted to the flag `hasFunction` (the truthiness of
`self._function`); the argument shapes actually passed to a callback are
settled separately on `do_function` below. -/
structure ButtonState where
  _invert : Bool
  _dtime : Int
  _time_ticks : Nat
  _count : Nat
  hasFunction : Bool
deriving DecidableEq

/-- One edge interrupt delivered to `Button._handler`: `now` is the value
`time.ticks_ms()` reads during this handler invocation (the two reads on
source lines 86 and 101 are modelled as the same instant, the handler being
interrupt context), and `pinLevel` is the raw electrical level of the pin at
the re-read of source line 89. -/
structure Event where
  now : Nat
  pinLevel : Bool
deriving DecidableEq

/-- `Signal(pin, invert=...).value()`: the polarity-normalized logical level
(the machine library's `Signal` negates the raw pin level when inverted). -/
def signal_value (invert : Bool) (pinLevel : Bool) : Bool :=
  if invert then !pinLevel else pinLevel

/-- Observable outcome of one `Button._handler` invocation: the updated button
state, whether the registered callback was invoked (`fired`), and whether the
press was accepted (counter incremented). -/
structure HandlerResult where
  state : ButtonState
  fired : Bool
  accepted : Bool
deriving DecidableEq

/-- `Button._handler` (source lines 76-101) after the registry lookup has
resolved `myself` to this button: the debounce check
(`time.ticks_diff(time.ticks_ms(), myself._time_ticks) < myself._dtime`),
then the ghost check (`not myself._signal.value()`), then the accepting path
(`myself._count += 1`, run the callback if one is bound, store the tick
value into `myself._time_ticks`). -/
def _handler (s : ButtonState) (e : Event) : HandlerResult :=
  if ticks_diff e.now s._time_ticks < s._dtime then ⟨s, false, false⟩
  else if !(signal_value s._invert e.pinLevel) then ⟨s, false, false⟩
  else ⟨⟨s._invert, s._dtime, e.now, s._count + 1, s.hasFunction⟩, s.hasFunction, true⟩

/-- Tick values of the accepted (counter-incrementing) events of a sequence of
edge interrupts processed by `_handler`. -/
def run_accepted (s : ButtonState) : List Event → List Nat
  | [] => []
  | e :: es =>
    if (_handler s e).accepted then e.now :: run_accepted (_handler s e).state es
    else run_accepted (_handler s e).state es

/-- Button state after a sequence of edge interrupts. -/
def run_handler (s : ButtonState) : List Event → ButtonState
  | [] => s
  | e :: es => run_handler (_handler s e).state es

/-- Acceptance flag of each edge interrupt of a sequence, in order. -/
def run_flags (s : ButtonState) : List Event → List Bool
  | [] => []
  | e :: es => (_handler s e).accepted :: run_flags (_handler s e).state es

/-- A freshly constructed non-inverted button with `bouncetime=200`
(source lines 59-62: `_time_ticks = 0`, `_count = 0`). -/
def freshButton : ButtonState := ⟨false, 200, 0, 0, false⟩

/-- The spec scenario: edges at ticks 0, 50 and 250, each with the signal
reading pressed (raw level high on a non-inverted button). -/
def c4Events : List Event := [⟨0, true⟩, ⟨50, true⟩, ⟨250, true⟩]

/-- `KeyList._findkey` (source lines 10-15): index of the first pair whose key
equals `key`; `none` models the `-1` sentinel. -/
def _findkey {π β : Type} [DecidableEq π] : List (π × β) → π → Option Nat
  | [], _ => none
  | item :: rest, key =>
    if item.1 = key then some 0
    else (_findkey rest key).map (· + 1)

/-- `KeyList.__setitem__` (source lines 17-22): replace the first pair with an
equal key in place, else append. -/
def setitem {π β : Type} [DecidableEq π] (l : List (π × β)) (key : π) (value : β) :
    List (π × β) :=
  match _findkey l key with
  | some i => l.set i (key, value)
  | none => l ++ [(key, value)]

/-- `KeyList.__getitem__` (source lines 24-28): value of the first pair with an
equal key; `none` models the returned `None`. -/
def getitem {π β : Type} [DecidableEq π] (l : List (π × β)) (key : π) : Option β :=
  match _findkey l key with
  | some i => (l[i]?).map Prod.snd
  | none => none

/-- `KeyList.keys` (source lines 30-31). -/
def keys {π β : Type} (l : List (π × β)) : List π := l.map Prod.fst

/-- `KeyList.values` (source lines 33-34). -/
def values {π β : Type} (l : List (π × β)) : List β := l.map Prod.snd

/-- `Button._put_myself` (source lines 113-119).  The `del btn` statement only
unbinds the local name `btn` (it has no effect on the roster); the actual
replacement is the `Button._kroster[_pin] = self` call, i.e. `__setitem__`. -/
def put_myself {π β : Type} [DecidableEq π] (roster : List (π × β)) (pin : π)
    (self : β) : List (π × β) :=
  setitem roster pin self

/-- `Button._get_myself` (source lines 108-111), the lookup the interrupt
handler performs to resolve the owning button of a pin. -/
def get_myself {π β : Type} [DecidableEq π] (roster : List (π × β)) (pin : π) :
    Option β :=
  getitem roster pin

/-- `Button._exist_myself` (source lines 121-123):
`self in self._kroster.values()`. -/
def exist_myself {π β : Type} [DecidableEq π] [DecidableEq β]
    (roster : List (π × β)) (self : β) : Bool :=
  decide (self ∈ values roster)

/-- A Python value passed as the `args` bundle: either a tuple or a non-tuple
scalar (the `isinstance(fargs, tuple)` test of source line 128). -/
inductive FArgs (α : Type) where
  | scalar (a : α)
  | tuple (l : List α)
deriving DecidableEq

/-- The observable invocation `function(*pos, **kw, myself=self)`: the
positional values, the keyword bindings, and the button reference passed as
the distinguished named argument `myself`. -/
structure Call (α κ β : Type) where
  posArgs : List α
  kwArgs : List (κ × α)
  myself : β
deriving DecidableEq

/-- Python truthiness of the `fkwargs` dict as used by `if fkwargs:`
(source lines 130 and 134): `None` and the empty dict are falsy. -/
def kw_truthy {κ α : Type} : Option (List (κ × α)) → Bool
  | none => false
  | some l => !l.isEmpty

/-- `Button._do_function` (source lines 125-137): normalize a non-tuple `fargs`
to a one-element tuple, then branch on the presence of the two bundles; every
branch passes `myself=self`. -/
def do_function {α κ β : Type} (self : β) (fargs : Option (FArgs α))
    (fkwargs : Option (List (κ × α))) : Call α κ β :=
  match fargs with
  | some fa =>
    let fa2 : List α :=
      match fa with
      | FArgs.tuple l => l
      | FArgs.scalar a => [a]
    if kw_truthy fkwargs then ⟨fa2, fkwargs.getD [], self⟩
    else ⟨fa2, [], self⟩
  | none =>
    if kw_truthy fkwargs then ⟨[], fkwargs.getD [], self⟩
    else ⟨[], [], self⟩

/-- Python exceptions raised by the embedded code: the `AssertionError` of
`Button.set_function` (expired instance), the `AssertionError` of the
`Volume.__init__` curve check, and `ZeroDivisionError`. -/
inductive PyErr where
  | assertExpired
  | invalidArgument
  | zeroDivision
deriving DecidableEq

/-- The three callback-binding fields of a `Button`
(`_function`, `_fargs`, `_fkwargs`, source lines 63-65). -/
structure CbState (φ α κ : Type) where
  _function : Option φ
  _fargs : Option (FArgs α)
  _fkwargs : Option (List (κ × α))
deriving DecidableEq

/-- `Button.set_function` (source lines 139-144): assert liveness
(`assert self._exist_myself()`), then replace the three callback fields.
Returns the resulting fields and the raised exception, if any: on an expired
instance the `AssertionError` propagates and the fields stay untouched. -/
def set_function {π β φ α κ : Type} [DecidableEq π] [DecidableEq β]
    (roster : List (π × β)) (self : β) (cur : CbState φ α κ)
    (function : Option φ) (args : Option (FArgs α))
    (kwargs : Option (List (κ × α))) : CbState φ α κ × Option PyErr :=
  if exist_myself roster self then (⟨function, args, kwargs⟩, none)
  else (cur, some PyErr.assertExpired)

/-- A concrete callback-field record used by closed witnesses. -/
def cb0 : CbState Nat Nat Nat := ⟨some 9, none, none⟩

/-- Mutable state of one `Volume` instance (source lines 165-186). -/
structure VolState where
  _min : Int
  _max : Int
  _range : Int
  _vol : Int
  _invert : Bool
  _exp : ℚ
deriving DecidableEq

/-- Observable state of the PWM collaborator: last frequency and last duty
value set on it (`none` when never set). -/
structure PwmState where
  freq : Option Int
  duty : Option Int
deriving DecidableEq

/-- Python `**` as used by `Volume.u16value`.  The floating-point value of a
nonzero base is abstracted by the oracle `pw` (float arithmetic is not
modelled exactly; no claim depends on it); the zero-base cases follow Python
exactly: `0 ** 0 == 1`, `0 ** e == 0` for positive `e`, and `0 ** e` raises
`ZeroDivisionError` for negative `e`. -/
def pypow (pw : ℚ → ℚ → ℚ) (b e : ℚ) : Except PyErr ℚ :=
  if b = 0 then
    if e < 0 then Except.error PyErr.zeroDivision
    else if e = 0 then Except.ok 1
    else Except.ok 0
  else Except.ok (pw b e)

/-- Python `int(x)`: truncation toward zero. -/
def pyint (q : ℚ) : Int := if 0 ≤ q then ⌊q⌋ else ⌈q⌉

/-- `Volume.u16value` (source lines 191-194):
`reg = value ** self._exp / self._range ** self._exp`, optional inversion,
then `int(65535 * reg)`; Python evaluation order, with `ZeroDivisionError`
on a zero divisor. -/
def u16value (pw : ℚ → ℚ → ℚ) (s : VolState) (value : ℚ) : Except PyErr Int :=
  match pypow pw value s._exp with
  | Except.error err => Except.error err
  | Except.ok n =>
    match pypow pw (s._range : ℚ) s._exp with
    | Except.error err => Except.error err
    | Except.ok d =>
      if d = 0 then Except.error PyErr.zeroDivision
      else
        let reg := n / d
        let reg2 := if s._invert then 1 - reg else reg
        Except.ok (pyint (65535 * reg2))

/-- The `curve` constructor argument: a numeric exponent (`int` or `float`),
or a letter selecting a preset exponent. -/
inductive Curve where
  | num (x : ℚ)
  | letter (c : Char)
deriving DecidableEq

/-- The preset table `{'A': 2, 'B': 1, 'C': 0.7, 'D': 3}` of source line 186;
the default `0` is unreachable because the assert has already checked
membership in `list('ABCD')`. -/
def curveTable : Char → ℚ
  | 'A' => 2
  | 'B' => 1
  | 'C' => 7 / 10
  | 'D' => 3
  | _ => 0

/-- The curve-argument resolution of `Volume.__init__` (source lines 180-186):
numeric curves are taken as the exponent; letters are checked against
`list('ABCD')` by an assert and mapped through the preset table. -/
def resolveCurve : Curve → Except PyErr ℚ
  | Curve.num x => Except.ok x
  | Curve.letter c =>
    if c ∈ (['A', 'B', 'C', 'D'] : List Char) then Except.ok (curveTable c)
    else Except.error PyErr.invalidArgument

/-- `Volume.__init__` (source lines 165-189): store the fields (including
`_range = max - min`), resolve the curve (the assert may raise before any
hardware side effect), then `pwm.freq(freq)` and
`pwm.duty_u16(self.u16value(min))`.  Returns the construction result and the
final PWM state, which records the hardware side effects actually applied. -/
def Volume.init (pw : ℚ → ℚ → ℚ) (pwm0 : PwmState)
    (minv maxv initialv freqv : Int) (curve : Curve) (invert : Bool) :
    Except PyErr VolState × PwmState :=
  match resolveCurve curve with
  | Except.error err => (Except.error err, pwm0)
  | Except.ok ex =>
    let s : VolState := ⟨minv, maxv, maxv - minv, initialv, invert, ex⟩
    match u16value pw s (minv : ℚ) with
    | Except.error err => (Except.error err, ⟨some freqv, pwm0.duty⟩)
    | Except.ok d => (Except.ok s, ⟨some freqv, some d⟩)

/-- `Volume.up` (source lines 196-202): `_vol = min(_vol + 1, _max)`, override
to `_min` when `opposite.get_signal()` reads active, then set the PWM duty
and return the new value.  `oppositeSignal` is the opposite button's signal
level at the moment the handler runs.  The new `_vol` is stored before the
duty computation (which may raise), like the source. -/
def Volume.up (pw : ℚ → ℚ → ℚ) (s : VolState) (oppositeSignal : Bool)
    (pwm : PwmState) : VolState × Except PyErr (PwmState × Int) :=
  let v1 := min (s._vol + 1) s._max
  let v2 := if oppositeSignal then s._min else v1
  let s2 : VolState := ⟨s._min, s._max, s._range, v2, s._invert, s._exp⟩
  match u16value pw s2 (v2 : ℚ) with
  | Except.error err => (s2, Except.error err)
  | Except.ok d => (s2, Except.ok (⟨pwm.freq, some d⟩, v2))

/-- `Volume.down` (source lines 204-210): `_vol = max(_vol - 1, _min)`, with
the same opposite-button override and duty update as `Volume.up`. -/
def Volume.down (pw : ℚ → ℚ → ℚ) (s : VolState) (oppositeSignal : Bool)
    (pwm : PwmState) : VolState × Except PyErr (PwmState × Int) :=
  let v1 := max (s._vol - 1) s._min
  let v2 := if oppositeSignal then s._min else v1
  let s2 : VolState := ⟨s._min, s._max, s._range, v2, s._invert, s._exp⟩
  match u16value pw s2 (v2 : ℚ) with
  | Except.error err => (s2, Except.error err)
  | Except.ok d => (s2, Except.ok (⟨pwm.freq, some d⟩, v2))

/-- The yellow-LED volume of the wiring script (source line 282, after five
`up` presses): bounds `[0, 10]`, current value 5, curve `'A'` (exponent 2),
not inverted. -/
def volA : VolState := ⟨0, 10, 10, 5, false, 2⟩

/-- `_handler` either discards the event with the state untouched, or the
debounce bound held and it accepts, bumping the counter and storing the tick
value. -/
theorem handler_cases (s : ButtonState) (e : Event) :
    _handler s e = ⟨s, false, false⟩ ∨
    (s._dtime ≤ ticks_diff e.now s._time_ticks ∧
      _handler s e = ⟨⟨s._invert, s._dtime, e.now, s._count + 1, s.hasFunction⟩,
        s.hasFunction, true⟩) := by
  unfold _handler
  split
  · exact Or.inl rfl
  · next h =>
    split
    · exact Or.inl rfl
    · exact Or.inr ⟨not_lt.mp h, rfl⟩

/-- The first accepted tick value of a run is at least a debounce interval
after the stored `_time_ticks` of the starting state. -/
theorem run_accepted_head (es : List Event) : ∀ (s : ButtonState) (a : Nat),
    (run_accepted s es).head? = some a → s._dtime ≤ ticks_diff a s._time_ticks := by
  induction es with
  | nil =>
    intro s a h
    simp [run_accepted] at h
  | cons e es ih =>
    intro s a h
    rcases handler_cases s e with hrej | ⟨hle, hacc⟩
    · rw [run_accepted, hrej] at h
      exact ih s a h
    · rw [run_accepted, hacc] at h
      simp at h
      exact h ▸ hle

/-- Consecutive accepted tick values of a run are spaced by at least the
debounce interval `d` of the (immutable) `_dtime` field. -/
theorem run_accepted_chain (es : List Event) : ∀ (s : ButtonState) (d : Int),
    s._dtime = d →
    List.Chain' (fun a b : Nat => d ≤ ticks_diff b a) (run_accepted s es) := by
  induction es with
  | nil =>
    intro s d _
    simp [run_accepted]
  | cons e es ih =>
    intro s d hd
    rcases handler_cases s e with hrej | ⟨hle, hacc⟩
    · rw [run_accepted, hrej]
      exact ih s d hd
    · rw [run_accepted, hacc]
      show List.Chain' (fun a b : Nat => d ≤ ticks_diff b a)
        (e.now :: run_accepted
          ⟨s._invert, s._dtime, e.now, s._count + 1, s.hasFunction⟩ es)
      refine List.chain'_cons'.mpr ⟨?_, ih _ d hd⟩
      intro y hy
      have h2 := run_accepted_head es
        ⟨s._invert, s._dtime, e.now, s._count + 1, s.hasFunction⟩ y
        (Option.mem_def.mp hy)
      exact hd ▸ h2

/-- Claim C1: for every button state and every sequence of edge interrupts, no
two consecutive accepted (counter-incrementing) events have tick values whose
wraparound-safe distance is below the configured debounce interval; and any
single edge whose wraparound-safe elapsed time since the last-accepted
timestamp is strictly below the debounce interval is discarded with the state
unchanged (no counter increment) and no callback invocation. -/
theorem debounce_min_spacing (s : ButtonState) (es : List Event) :
    List.Chain' (fun a b : Nat => s._dtime ≤ ticks_diff b a) (run_accepted s es) ∧
    ∀ e : Event, ticks_diff e.now s._time_ticks < s._dtime →
      _handler s e = ⟨s, false, false⟩ := by
  constructor
  · exact run_accepted_chain es s s._dtime rfl
  · intro e h
    unfold _handler
    rw [if_pos h]

/-- Closed witness for `debounce_min_spacing`: a fresh 200 ms button discards
an edge at tick 50 (elapsed 50 below 200) without counting or firing. -/
theorem debounce_min_spacing_witness :
    ticks_diff 50 freshButton._time_ticks < freshButton._dtime ∧
    _handler freshButton ⟨50, true⟩ = ⟨freshButton, false, false⟩ :=
  ⟨by decide, (debounce_min_spacing freshButton []).2 ⟨50, true⟩ (by decide)⟩

/-- Claim C2: an edge that passes the debounce check but whose re-read
polarity-normalized level does not read pressed (logic-low when inverted,
logic-high otherwise) is discarded: state unchanged (no counter increment)
and no callback invocation. -/
theorem ghost_reject (s : ButtonState) (e : Event)
    (hdeb : s._dtime ≤ ticks_diff e.now s._time_ticks)
    (hghost : signal_value s._invert e.pinLevel = false) :
    _handler s e = ⟨s, false, false⟩ := by
  unfold _handler
  rw [if_neg (not_lt.mpr hdeb), hghost]
  rfl

/-- Closed witness for `ghost_reject`: a fresh 200 ms button sees an edge at
tick 300 whose re-read raw level is low (signal not pressed) and discards it. -/
theorem ghost_reject_witness :
    (freshButton._dtime ≤ ticks_diff 300 freshButton._time_ticks ∧
      signal_value freshButton._invert false = false) ∧
    _handler freshButton ⟨300, false⟩ = ⟨freshButton, false, false⟩ :=
  ⟨⟨by decide, by decide⟩, ghost_reject freshButton ⟨300, false⟩ (by decide) (by decide)⟩

/-- Claim C4, counterexample: on the code, a freshly constructed 200 ms button
(whose `_time_ticks` is initialized to 0) processing pressed edges at ticks
0, 50 and 250 does not end with the counter at 2: the edge at tick 0 is
already rejected because `ticks_diff(0, 0) = 0` is below 200. -/
theorem c4_scenario_count_ne_two :
    (run_handler freshButton c4Events)._count ≠ 2 := by decide

/-- Claim C4, amended: with debounce interval 200 ms and pressed edges at
ticks 0, 50 and 250, the fresh button rejects the edge at tick 0 (elapsed 0
from the zero-initialized timestamp is below 200), rejects the edge at tick
50, accepts the edge at tick 250 (elapsed 250 at least 200), and the counter
ends at exactly 1. -/
theorem c4_scenario_amended :
    run_flags freshButton c4Events = [false, false, true] ∧
    (run_handler freshButton c4Events)._count = 1 := by decide

/-- Structural characterization of `getitem` on a cons cell. -/
theorem getitem_cons {π β : Type} [DecidableEq π] (item : π × β) (l : List (π × β))
    (key : π) :
    getitem (item :: l) key = if item.1 = key then some item.2 else getitem l key := by
  by_cases hk : item.1 = key
  · simp [getitem, _findkey, hk]
  · cases h : _findkey l key with
    | none => simp [getitem, _findkey, hk, h]
    | some i => simp [getitem, _findkey, hk, h]

/-- Structural characterization of `setitem` on a cons cell. -/
theorem setitem_cons {π β : Type} [DecidableEq π] (item : π × β) (l : List (π × β))
    (key : π) (value : β) :
    setitem (item :: l) key value =
      if item.1 = key then (key, value) :: l else item :: setitem l key value := by
  by_cases hk : item.1 = key
  · simp [setitem, _findkey, hk]
  · cases h : _findkey l key with
    | none => simp [setitem, _findkey, hk, h]
    | some i => simp [setitem, _findkey, hk, h]

/-- `setitem` on the empty list appends. -/
theorem setitem_nil {π β : Type} [DecidableEq π] (key : π) (value : β) :
    setitem ([] : List (π × β)) key value = [(key, value)] := rfl

/-- After `setitem`, looking up the written key yields the written value: the
first occurrence of the key is replaced in place (or the pair appended). -/
theorem getitem_setitem_self {π β : Type} [DecidableEq π] (l : List (π × β))
    (key : π) (value : β) :
    getitem (setitem l key value) key = some value := by
  induction l with
  | nil =>
    rw [setitem_nil, getitem_cons]
    simp
  | cons item t ih =>
    rw [setitem_cons]
    by_cases hk : item.1 = key
    · rw [if_pos hk, getitem_cons]
      simp
    · rw [if_neg hk, getitem_cons, if_neg hk]
      exact ih

/-- Every key of `setitem l key value` is the written key or a key of `l`. -/
theorem mem_keys_setitem {π β : Type} [DecidableEq π] (l : List (π × β)) (key : π)
    (value : β) (x : π) (h : x ∈ keys (setitem l key value)) :
    x = key ∨ x ∈ keys l := by
  induction l with
  | nil =>
    rw [setitem_nil] at h
    simp [keys] at h
    exact Or.inl h
  | cons item t ih =>
    rw [setitem_cons] at h
    by_cases hk : item.1 = key
    · rw [if_pos hk] at h
      simp only [keys, List.map_cons] at h
      rcases List.mem_cons.mp h with h2 | h2
      · exact Or.inl h2
      · exact Or.inr (List.mem_cons.mpr (Or.inr h2))
    · rw [if_neg hk] at h
      simp only [keys, List.map_cons] at h
      rcases List.mem_cons.mp h with h2 | h2
      · exact Or.inr (List.mem_cons.mpr (Or.inl h2))
      · rcases ih h2 with h3 | h3
        · exact Or.inl h3
        · exact Or.inr (List.mem_cons.mpr (Or.inr h3))

/-- `setitem` preserves key uniqueness: the registry keeps at most one entry
per pin identity. -/
theorem keys_setitem_nodup {π β : Type} [DecidableEq π] (l : List (π × β))
    (key : π) (value : β) (h : (keys l).Nodup) :
    (keys (setitem l key value)).Nodup := by
  induction l with
  | nil =>
    rw [setitem_nil]
    simp [keys]
  | cons item t ih =>
    rw [setitem_cons]
    simp only [keys, List.map_cons, List.nodup_cons] at h
    by_cases hk : item.1 = key
    · rw [if_pos hk]
      simp only [keys, List.map_cons, List.nodup_cons]
      exact ⟨fun hmem => h.1 (hk ▸ hmem), h.2⟩
    · rw [if_neg hk]
      simp only [keys, List.map_cons, List.nodup_cons]
      refine ⟨fun hmem => ?_, ih h.2⟩
      rcases mem_keys_setitem t key value item.1 hmem with h2 | h2
      · exact hk h2
      · exact h.1 h2

/-- If the superseded value was registered only under the written key, it is
no longer among the registry values after `setitem`. -/
theorem not_mem_values_setitem {π β : Type} [DecidableEq π] (l : List (π × β))
    (pin : π) (old new : β) (hkeys : (keys l).Nodup)
    (honly : ∀ item ∈ l, item.2 = old → item.1 = pin) (hne : old ≠ new) :
    old ∉ values (setitem l pin new) := by
  induction l with
  | nil =>
    rw [setitem_nil]
    simp only [values, List.map_cons, List.map_nil]
    intro hmem
    exact hne (List.mem_singleton.mp hmem)
  | cons item t ih =>
    rw [setitem_cons]
    simp only [keys, List.map_cons, List.nodup_cons] at hkeys
    by_cases hk : item.1 = pin
    · rw [if_pos hk]
      simp only [values, List.map_cons]
      intro hmem
      rcases List.mem_cons.mp hmem with h | h
      · exact hne h
      · rcases List.mem_map.mp h with ⟨q, hq, hq2⟩
        have hqpin : q.1 = pin := honly q (List.mem_cons_of_mem item hq) hq2
        have hmemk : item.1 ∈ List.map Prod.fst t := by
          rw [hk, ← hqpin]
          exact List.mem_map_of_mem Prod.fst hq
        exact hkeys.1 hmemk
    · rw [if_neg hk]
      simp only [values, List.map_cons]
      intro hmem
      rcases List.mem_cons.mp hmem with h | h
      · exact hk (honly item (List.mem_cons_self item t) h.symm)
      · have ht := ih hkeys.2
          (fun q hq hq2 => honly q (List.mem_cons_of_mem item hq) hq2)
        exact ht (by simpa [values] using h)

/-- Claim C3: registering a new button under a pin identity already held by a
live button replaces the registry entry in place: the lookup the interrupt
handler performs afterwards resolves to the new button only, the old button's
existence check `_exist_myself` reports false, and the registry still holds
at most one entry per pin identity. -/
theorem registry_replaces {π β : Type} [DecidableEq π] [DecidableEq β]
    (roster : List (π × β)) (pin : π) (old new : β)
    (hkeys : (keys roster).Nodup)
    (hold : get_myself roster pin = some old)
    (honly : ∀ item ∈ roster, item.2 = old → item.1 = pin)
    (hne : old ≠ new) :
    get_myself (put_myself roster pin new) pin = some new ∧
    exist_myself (put_myself roster pin new) old = false ∧
    (keys (put_myself roster pin new)).Nodup := by
  refine ⟨getitem_setitem_self roster pin new, ?_,
    keys_setitem_nodup roster pin new hkeys⟩
  have hnot := not_mem_values_setitem roster pin old new hkeys honly hne
  simpa [exist_myself, put_myself] using hnot

/-- Closed witness for `registry_replaces`: a one-entry roster mapping pin 11
to button 0, superseded by button 1. -/
theorem registry_replaces_witness :
    (((keys [((11 : Nat), (0 : Nat))]).Nodup ∧
        get_myself [((11 : Nat), (0 : Nat))] 11 = some 0) ∧
      (∀ item ∈ [((11 : Nat), (0 : Nat))], item.2 = 0 → item.1 = 11) ∧
      (0 : Nat) ≠ 1) ∧
    (get_myself (put_myself [((11 : Nat), (0 : Nat))] 11 1) 11 = some 1 ∧
      exist_myself (put_myself [((11 : Nat), (0 : Nat))] 11 1) 0 = false ∧
      (keys (put_myself [((11 : Nat), (0 : Nat))] 11 1)).Nodup) :=
  ⟨⟨⟨by decide, by decide⟩, by decide, by decide⟩,
    registry_replaces [((11 : Nat), (0 : Nat))] 11 0 1 (by decide) (by decide)
      (by decide) (by decide)⟩

/-- Claim C5: in every one of the four binding shapes — no bundles, positional
bundle only, keyword bundle only, both bundles — the dispatch invokes the
callback with exactly the declared positional values, then the declared
keyword values, and always passes the firing button as the named argument
`myself`. -/
theorem do_function_shapes {α κ β : Type} (self : β) (pos : List α)
    (kw : List (κ × α)) :
    do_function self (none : Option (FArgs α)) (none : Option (List (κ × α)))
      = ⟨[], [], self⟩ ∧
    do_function self (some (FArgs.tuple pos)) (none : Option (List (κ × α)))
      = ⟨pos, [], self⟩ ∧
    do_function self (none : Option (FArgs α)) (some kw) = ⟨[], kw, self⟩ ∧
    do_function self (some (FArgs.tuple pos)) (some kw) = ⟨pos, kw, self⟩ := by
  refine ⟨rfl, rfl, ?_, ?_⟩ <;> cases kw <;> rfl

/-- Claim C6: a scalar (non-tuple) positional value is treated as a
one-element positional bundle, while a tuple is passed through as the bundle
itself, under any keyword bundle. -/
theorem do_function_scalar {α κ β : Type} (self : β) (a : α) (l : List α)
    (fkw : Option (List (κ × α))) :
    (do_function self (some (FArgs.scalar a)) fkw).posArgs = [a] ∧
    (do_function self (some (FArgs.tuple l)) fkw).posArgs = l := by
  cases fkw with
  | none => exact ⟨rfl, rfl⟩
  | some l2 => cases l2 with
    | nil => exact ⟨rfl, rfl⟩
    | cons x xs => exact ⟨rfl, rfl⟩

/-- Claim C7: `set_function` on a button that is not live (superseded in the
registry) raises the expired-instance assertion to the caller and leaves the
callback, positional-bundle and keyword-bundle fields untouched; on a live
button it succeeds and replaces all three. -/
theorem set_function_contract {π β φ α κ : Type} [DecidableEq π] [DecidableEq β]
    (roster : List (π × β)) (self : β) (cur : CbState φ α κ)
    (f : Option φ) (a : Option (FArgs α)) (k : Option (List (κ × α))) :
    (exist_myself roster self = false →
      set_function roster self cur f a k = (cur, some PyErr.assertExpired)) ∧
    (exist_myself roster self = true →
      set_function roster self cur f a k = (⟨f, a, k⟩, none)) := by
  constructor <;> intro h <;> simp [set_function, h]

/-- Closed witness for `set_function_contract`: on the roster mapping pin 11
to button 0, button 5 is expired (call rejected, fields kept) and button 0 is
live (fields replaced). -/
theorem set_function_contract_witness :
    (exist_myself [((11 : Nat), (0 : Nat))] (5 : Nat) = false ∧
      set_function [((11 : Nat), (0 : Nat))] 5 cb0 (some 1)
          (none : Option (FArgs Nat)) (none : Option (List (Nat × Nat)))
        = (cb0, some PyErr.assertExpired)) ∧
    (exist_myself [((11 : Nat), (0 : Nat))] (0 : Nat) = true ∧
      set_function [((11 : Nat), (0 : Nat))] 0 cb0 (some 1)
          (none : Option (FArgs Nat)) (none : Option (List (Nat × Nat)))
        = (⟨some 1, none, none⟩, none)) :=
  ⟨⟨by decide,
      (set_function_contract [((11 : Nat), (0 : Nat))] 5 cb0 (some 1) none none).1
        (by decide)⟩,
    ⟨by decide,
      (set_function_contract [((11 : Nat), (0 : Nat))] 0 cb0 (some 1) none none).2
        (by decide)⟩⟩

/-- The volume state stored by `Volume.up`, whatever the duty computation
does afterwards. -/
theorem volume_up_fst (pw : ℚ → ℚ → ℚ) (s : VolState) (b : Bool) (pwm : PwmState) :
    (Volume.up pw s b pwm).1 =
      ⟨s._min, s._max, s._range,
        (if b then s._min else min (s._vol + 1) s._max), s._invert, s._exp⟩ := by
  simp only [Volume.up]
  split <;> rfl

/-- The volume state stored by `Volume.down`, whatever the duty computation
does afterwards. -/
theorem volume_down_fst (pw : ℚ → ℚ → ℚ) (s : VolState) (b : Bool) (pwm : PwmState) :
    (Volume.down pw s b pwm).1 =
      ⟨s._min, s._max, s._range,
        (if b then s._min else max (s._vol - 1) s._min), s._invert, s._exp⟩ := by
  simp only [Volume.down]
  split <;> rfl

/-- Claim C8: `up` stores `min(_vol + 1, _max)` and `down` stores
`max(_vol - 1, _min)`, except that when the opposite button's live signal
reads active the stored value is overridden to `_min`; in particular `up`
fired at value 5 on a `[0, 10]` volume with the opposite button pressed
stores 0, not 6. -/
theorem volume_step_override (pw : ℚ → ℚ → ℚ) (s : VolState)
    (oppositeSignal : Bool) (pwm : PwmState) :
    ((Volume.up pw s oppositeSignal pwm).1)._vol
      = (if oppositeSignal then s._min else min (s._vol + 1) s._max) ∧
    ((Volume.down pw s oppositeSignal pwm).1)._vol
      = (if oppositeSignal then s._min else max (s._vol - 1) s._min) ∧
    ((Volume.up pw volA true pwm).1)._vol = 0 := by
  refine ⟨?_, ?_, ?_⟩
  · rw [volume_up_fst]
  · rw [volume_down_fst]
  · rw [volume_up_fst]
    rfl

/-- Claim C9: constructing a `Volume` with a letter curve outside `'ABCD'`
fails with the invalid-argument assertion before any hardware side effect:
the PWM state is returned exactly as it was (neither frequency nor duty
set). -/
theorem volume_bad_curve (pw : ℚ → ℚ → ℚ) (pwm0 : PwmState)
    (minv maxv initialv freqv : Int) (invert : Bool) (c : Char)
    (hc : c ∉ (['A', 'B', 'C', 'D'] : List Char)) :
    Volume.init pw pwm0 minv maxv initialv freqv (Curve.letter c) invert
      = (Except.error PyErr.invalidArgument, pwm0) := by
  simp only [Volume.init, resolveCurve]
  rw [if_neg hc]

/-- Closed witness for `volume_bad_curve`: curve letter `'X'` on a PWM that
was never configured; frequency and duty remain unset. -/
theorem volume_bad_curve_witness :
    ('X' ∉ (['A', 'B', 'C', 'D'] : List Char)) ∧
    Volume.init (fun _ _ => 1) ⟨none, none⟩ 0 10 0 120 (Curve.letter 'X') false
      = (Except.error PyErr.invalidArgument, ⟨none, none⟩) :=
  ⟨by decide,
    volume_bad_curve (fun _ _ => 1) ⟨none, none⟩ 0 10 0 120 false 'X' (by decide)⟩

/-- With a zero `_range` and a nonzero exponent, `u16value` raises
`ZeroDivisionError`: the divisor `range ** exp` is zero for a positive
exponent, and `0 ** exp` itself raises for a negative one. -/
theorem u16value_zero_range (pw : ℚ → ℚ → ℚ) (s : VolState) (v : ℚ)
    (hr : s._range = 0) (he : s._exp ≠ 0) :
    u16value pw s v = Except.error PyErr.zeroDivision := by
  have h0 : ((s._range : Int) : ℚ) = 0 := by
    rw [hr]
    norm_num
  rcases lt_trichotomy s._exp 0 with hlt | heq | hgt
  · by_cases hv : v = 0
    · simp [u16value, pypow, hv, hlt]
    · simp [u16value, pypow, hv, h0, hlt]
  · exact absurd heq he
  · have hnlt : ¬ s._exp < 0 := not_lt.mpr (le_of_lt hgt)
    by_cases hv : v = 0
    · simp [u16value, pypow, hv, h0, hnlt, he]
    · simp [u16value, pypow, hv, h0, hnlt, he]

/-- Claim C10: constructing a `Volume` with `min = max` (zero internal range)
and a resolved curve exponent that is nonzero raises an uncaught
`ZeroDivisionError` from the constructor's duty computation
`u16value(min)`; every letter curve `'A'`-`'D'` has a nonzero preset
exponent. -/
theorem volume_zero_range_raises (pw : ℚ → ℚ → ℚ) (pwm0 : PwmState)
    (minv initialv freqv : Int) (invert : Bool) (curve : Curve) (ex : ℚ)
    (hres : resolveCurve curve = Except.ok ex) (hex : ex ≠ 0) :
    (Volume.init pw pwm0 minv minv initialv freqv curve invert).1
      = Except.error PyErr.zeroDivision ∧
    ∀ c ∈ (['A', 'B', 'C', 'D'] : List Char), curveTable c ≠ 0 := by
  constructor
  · have hu : u16value pw ⟨minv, minv, minv - minv, initialv, invert, ex⟩
        ((minv : Int) : ℚ) = Except.error PyErr.zeroDivision :=
      u16value_zero_range pw _ _ (sub_self minv) hex
    simp only [Volume.init, hres, hu]
  · intro ch hch
    fin_cases hch <;> norm_num [curveTable]

/-- Closed witness for `volume_zero_range_raises`: curve `'A'` (exponent 2)
with `min = max = 3`. -/
theorem volume_zero_range_raises_witness :
    (resolveCurve (Curve.letter 'A') = Except.ok 2 ∧ (2 : ℚ) ≠ 0) ∧
    (Volume.init (fun _ _ => 1) ⟨none, none⟩ 3 3 0 120 (Curve.letter 'A')
        false).1 = Except.error PyErr.zeroDivision :=
  ⟨⟨rfl, by norm_num⟩,
    (volume_zero_range_raises (fun _ _ => 1) ⟨none, none⟩ 3 0 120 false
      (Curve.letter 'A') 2 rfl (by norm_num)).1⟩

end Pico
